import Mathlib

/-!
Shallow embedding of `Lista de Tarefas.py`, a single-file task manager.
The mutable module globals (`TASKS`, `ARCHIVED_TASKS`, `ID_COUNTER`) become a
`Sistema` record threaded explicitly through the operations; each interactive
operation becomes a pure function taking its `input()` values as arguments and
returning a result signal together with the updated state.  Timestamp strings
are modelled by their parse result (`TsStr`), and Python's string-casing
builtins (`str.lower`, `str.capitalize`, `str.title`) are modelled over the
Latin alphabet extended with the accented letters the program's vocabulary
uses.
-/

namespace ListaTarefas

/-! ### Python string casing model -/

/-- Lowercase/uppercase letter pairs: the ASCII alphabet plus the accented
Latin letters occurring in the program's Portuguese vocabulary.  Python's
`str.lower`/`str.upper`/`str.capitalize`/`str.title` act on these pairs;
characters outside the table are treated as uncased, as Python treats
non-letters. -/
def lowerUpperPairs : List (Char × Char) :=
  [('a', 'A'), ('b', 'B'), ('c', 'C'), ('d', 'D'), ('e', 'E'), ('f', 'F'),
   ('g', 'G'), ('h', 'H'), ('i', 'I'), ('j', 'J'), ('k', 'K'), ('l', 'L'),
   ('m', 'M'), ('n', 'N'), ('o', 'O'), ('p', 'P'), ('q', 'Q'), ('r', 'R'),
   ('s', 'S'), ('t', 'T'), ('u', 'U'), ('v', 'V'), ('w', 'W'), ('x', 'X'),
   ('y', 'Y'), ('z', 'Z'),
   ('á', 'Á'), ('é', 'É'), ('í', 'Í'), ('ó', 'Ó'), ('ú', 'Ú'),
   ('â', 'Â'), ('ê', 'Ê'), ('ô', 'Ô'), ('ã', 'Ã'), ('õ', 'Õ'),
   ('à', 'À'), ('ç', 'Ç'), ('ü', 'Ü')]

/-- Uppercase a single character (Python `str.upper` on one char). -/
def pyToUpper (c : Char) : Char :=
  ((lowerUpperPairs.find? (fun p => p.1 == c)).map Prod.snd).getD c

/-- Lowercase a single character (Python `str.lower` on one char). -/
def pyToLower (c : Char) : Char :=
  ((lowerUpperPairs.find? (fun p => p.2 == c)).map Prod.fst).getD c

/-- Cased (alphabetic) characters, as far as the model's alphabet goes. -/
def pyIsAlpha (c : Char) : Bool :=
  lowerUpperPairs.any (fun p => p.1 == c || p.2 == c)

/-- Python `str.capitalize` on a character list: first character uppercased
(titlecased, which coincides with uppercase on this alphabet), the rest
lowercased. -/
def pyCapitalizeL : List Char → List Char
  | [] => []
  | c :: cs => pyToUpper c :: cs.map pyToLower

/-- Python `str.title` on a character list: a letter that does not follow a
letter is uppercased, every other letter is lowercased; non-letters are kept
and reset the word boundary.  The `Bool` argument records whether the previous
character was a letter. -/
def pyTitleAux : Bool → List Char → List Char
  | _, [] => []
  | prev, c :: cs =>
    if pyIsAlpha c then
      (if prev then pyToLower c else pyToUpper c) :: pyTitleAux true cs
    else
      c :: pyTitleAux false cs

/-- Python `str.lower`. -/
def pyLower (s : String) : String := ⟨s.data.map pyToLower⟩

/-- Python `str.capitalize`. -/
def pyCapitalize (s : String) : String := ⟨pyCapitalizeL s.data⟩

/-- Python `str.title`. -/
def pyTitle (s : String) : String := ⟨pyTitleAux false s.data⟩

/-! ### Timestamps

`datetime` values are modelled as integer seconds; an ISO timestamp string is
modelled by its parse outcome: `TsStr.valid t` stands for a string that
`datetime.fromisoformat` parses to the instant `t`, and `TsStr.invalid s` for
a string `s` on which parsing raises. -/

/-- A timestamp string, identified by its `datetime.fromisoformat` outcome. -/
inductive TsStr where
  | valid (t : Int)
  | invalid (s : String)
deriving Repr, DecidableEq

/-- Python truthiness of the underlying string (`if t.get("data_conclusao")`):
only the empty string is falsy; a parsable ISO string is never empty. -/
def TsStr.truthy : TsStr → Bool
  | .valid _ => true
  | .invalid s => s ≠ ""

/-- `parse_iso` (line 123): `datetime.fromisoformat` wrapped to return `None`
on failure. -/
def parse_iso : TsStr → Option Int
  | .valid t => some t
  | .invalid _ => none

/-- Seconds in a day; `timedelta(days=7)` is `7 * 86400` seconds. -/
def segundosPorDia : Int := 86400

/-! ### Data model -/

/-- A task record, mirroring the dict built in `criar_tarefa` (line 193):
keys `id`, `titulo`, `descricao`, `prioridade`, `status`, `origem`,
`data_criacao`, `data_conclusao`. -/
structure Tarefa where
  id : Int
  titulo : String
  descricao : String
  prioridade : String
  status : String
  origem : String
  data_criacao : TsStr
  data_conclusao : Option TsStr
deriving Repr, DecidableEq

/-- `PRIORITIES` (line 37). -/
def PRIORITIES : List String := ["Urgente", "Alta", "Média", "Baixa"]

/-- `PRIORITY_ORDER = PRIORITIES` (line 38). -/
def PRIORITY_ORDER : List String := PRIORITIES

/-- `ORIGENS`: the `valid` list inside `validar_origem` (line 148). -/
def ORIGENS : List String := ["E-mail", "Telefone", "Chamado do Sistema"]

/-- `validar_prioridade` (line 134): `prio.capitalize() in PRIORITIES`. -/
def validar_prioridade (prio : String) : Bool :=
  decide (pyCapitalize prio ∈ PRIORITIES)

/-- `validar_origem` (line 143): `orig.capitalize() in [v.capitalize() for v
in valid]`. -/
def validar_origem (orig : String) : Bool :=
  decide (pyCapitalize orig ∈ ORIGENS.map pyCapitalize)

/-! ### Operations

Each interactive function of the source becomes a pure function: its
`input()` values (already `.strip()`ped, as the source strips them at the
prompt) and the current wall-clock instant are arguments, printing is dropped,
and the mutated globals are returned. -/

/-- Result signals of `criar_tarefa`, mirroring its early returns. -/
inductive CriarResultado where
  | ok
  | tituloVazio
  | prioridadeInvalida
  | origemInvalida
deriving Repr, DecidableEq

/-- Core of `criar_tarefa` (lines 155-207): validates the inputs and builds
the task dict.  `tid` is the value `gerar_id()` would return and `now` the
instant of `agora_iso()`; the caller (`Sistema.step`) advances the id counter
exactly when creation succeeds, as `gerar_id` is only reached then. -/
def criar_tarefa (titulo descricao prio_in orig_in : String) (tid now : Int) :
    Option Tarefa :=
  if titulo = "" then none
  else
    let prioridade := pyCapitalize prio_in
    if ¬ validar_prioridade prioridade then none
    else
      let origem_title := pyTitle orig_in
      let origem_norm :=
        if pyLower origem_title ∈
            ["chamado", "chamadodosistema", "chamado do sistema"]
        then "Chamado do Sistema" else origem_title
      if ¬ validar_origem origem_norm then none
      else
        some { id := tid, titulo := titulo, descricao := descricao,
               prioridade := prioridade, status := "Pendente",
               origem := origem_norm, data_criacao := TsStr.valid now,
               data_conclusao := none }

/-- `encontrar_tarefa_por_id` (line 210): linear scan of the active list. -/
def encontrar_tarefa_por_id (tasks : List Tarefa) (tid : Int) : Option Tarefa :=
  tasks.find? (fun t => t.id == tid)

/-- Replace the first element satisfying `p` by its image under `f`; this is
what an in-place mutation of the first matching dict does to the list. -/
def updateFirst (p : Tarefa → Bool) (f : Tarefa → Tarefa) :
    List Tarefa → List Tarefa
  | [] => []
  | t :: ts => if p t then f t :: ts else t :: updateFirst p f ts

/-- `verificar_urgencia` (lines 224-255): filter the pending tasks, walk
`PRIORITY_ORDER` for the first level with a pending task and take the first
pending task of that level; if no level matched, fall back to the first
pending task (`pendentes[0]`).  The chosen task's status is set to `Fazendo`
in place; the function returns the (updated) selected task and the updated
list. -/
def verificar_urgencia (tasks : List Tarefa) : Option Tarefa × List Tarefa :=
  let pendentes := tasks.filter (fun t => t.status == "Pendente")
  match pendentes with
  | [] => (none, tasks)
  | _ :: _ =>
    let selPred : Tarefa → Bool :=
      match PRIORITY_ORDER.find?
          (fun pr => pendentes.any (fun t => t.prioridade == pr)) with
      | some pr => fun t => t.status == "Pendente" && t.prioridade == pr
      | none => fun t => t.status == "Pendente"
    ((tasks.find? selPred).map (fun t => { t with status := "Fazendo" }),
     updateFirst selPred (fun t => { t with status := "Fazendo" }) tasks)

/-- Result signals of `atualizar_prioridade`. -/
inductive AtualizarResultado where
  | ok
  | naoEncontrada
  | prioridadeInvalida
deriving Repr, DecidableEq

/-- `atualizar_prioridade` (lines 258-282): find the task by id, capitalize
and validate the new priority, then assign it to the found task in place. -/
def atualizar_prioridade (tasks : List Tarefa) (tid : Int) (entrada : String) :
    AtualizarResultado × List Tarefa :=
  match encontrar_tarefa_por_id tasks tid with
  | none => (.naoEncontrada, tasks)
  | some _ =>
    let nova := pyCapitalize entrada
    if ¬ validar_prioridade nova then (.prioridadeInvalida, tasks)
    else (.ok, updateFirst (fun t => t.id == tid)
                 (fun t => { t with prioridade := nova }) tasks)

/-- Result signals of `concluir_tarefa`. -/
inductive ConcluirResultado where
  | ok
  | naoEncontrada
  | jaConcluida
deriving Repr, DecidableEq

/-- `concluir_tarefa` (lines 285-308): find the task by id; if it is already
`Concluída` report so and change nothing; otherwise stamp
`data_conclusao = agora_iso()` and set status `Concluída` in place. -/
def concluir_tarefa (tasks : List Tarefa) (tid : Int) (now : Int) :
    ConcluirResultado × List Tarefa :=
  match encontrar_tarefa_por_id tasks tid with
  | none => (.naoEncontrada, tasks)
  | some t =>
    if t.status == "Concluída" then (.jaConcluida, tasks)
    else (.ok, updateFirst (fun u => u.id == tid)
                 (fun u => { u with data_conclusao := some (TsStr.valid now),
                                    status := "Concluída" }) tasks)

/-- Selection test of `arquivar_tarefas_antigas` (line 324): status is
`Concluída`, `data_conclusao` is present and truthy, parses, and is strictly
before the cutoff `limite`. -/
def deve_arquivar (limite : Int) (t : Tarefa) : Bool :=
  t.status == "Concluída" &&
    (match t.data_conclusao with
     | none => false
     | some ts =>
       ts.truthy &&
         (match parse_iso ts with
          | some dt => decide (dt < limite)
          | none => false))

/-- `arquivar_tarefas_antigas` (lines 311-341): collect the tasks to move
(`a_mover`), and if any, append them to the archived list and remove them
from the active list (`TASKS = [t for t in TASKS if t not in a_mover]`).
Returns the count moved with the two updated lists. -/
def arquivar_tarefas_antigas (tasks archived : List Tarefa) (agora : Int) :
    Nat × List Tarefa × List Tarefa :=
  let limite := agora - 7 * segundosPorDia
  let a_mover := tasks.filter (deve_arquivar limite)
  match a_mover with
  | [] => (0, tasks, archived)
  | _ :: _ =>
    (a_mover.length,
     tasks.filter (fun t => decide (t ∉ a_mover)),
     archived ++ a_mover)

/-- Result signals of `excluir_tarefa`. -/
inductive ExcluirResultado where
  | ok
  | naoEncontrada
deriving Repr, DecidableEq

/-- `excluir_tarefa` (lines 344-361): logical deletion; find the task by id
and set its status to `Excluída` in place. -/
def excluir_tarefa (tasks : List Tarefa) (tid : Int) :
    ExcluirResultado × List Tarefa :=
  match encontrar_tarefa_por_id tasks tid with
  | none => (.naoEncontrada, tasks)
  | some _ =>
    (.ok, updateFirst (fun t => t.id == tid)
            (fun t => { t with status := "Excluída" }) tasks)

/-- Duration block of `mostrar_detalhes_tarefa` (lines 377-387): shown only
when `data_conclusao` is truthy and both timestamps parse; the `timedelta`
`dur = fim - inicio` is decomposed as `dur.days` (floor of the day count) and
`divmod(dur.seconds, 3600)` / `divmod(resto, 60)`, where `dur.seconds` is the
non-negative remainder of the span modulo one day. -/
def compute_duration (t : Tarefa) : Option (Int × Nat × Nat × Nat) :=
  match t.data_conclusao with
  | none => none
  | some ts =>
    if ts.truthy then
      match parse_iso t.data_criacao, parse_iso ts with
      | some ini, some fim =>
        let dur := fim - ini
        let dias := Int.fdiv dur segundosPorDia
        let secs := (Int.fmod dur segundosPorDia).toNat
        let horas := secs / 3600
        let resto := secs % 3600
        let minutos := resto / 60
        let segundos := resto % 60
        some (dias, horas, minutos, segundos)
      | _, _ => none
    else none

/-- `relatorio_arquivadas` (lines 405-418): the archived records whose status
is not `Excluída`, in stored order; the collections themselves are only
read. -/
def relatorio_arquivadas (archived : List Tarefa) : List Tarefa :=
  archived.filter (fun t => t.status != "Excluída")

/-! ### Session state machine

The module globals `TASKS`, `ARCHIVED_TASKS`, `ID_COUNTER` form the state; a
session is `carregar_dados` followed by a sequence of menu operations. -/

/-- The global mutable state of the program. -/
structure Sistema where
  tasks : List Tarefa
  archived : List Tarefa
  idCounter : Int
deriving Repr, DecidableEq

/-- Maximum-id fold of `carregar_dados` (lines 81-88): `max_id` starts at 0
and takes every id of both collections into account. -/
def maxId (ts : List Tarefa) : Int :=
  ts.foldl (fun m t => if t.id > m then t.id else m) 0

/-- `carregar_dados` (lines 60-89), restricted to its in-memory effect: the
two collections come from the persistence adapter and
`ID_COUNTER = max_id + 1`. -/
def carregar_dados (tasks archived : List Tarefa) : Sistema :=
  { tasks := tasks, archived := archived,
    idCounter := maxId (tasks ++ archived) + 1 }

/-- A menu operation together with the `input()` values it consumes and the
instant at which it runs. -/
inductive Op where
  | criar (titulo descricao prio orig : String) (now : Int)
  | verificarUrgencia
  | atualizarPrioridade (tid : Int) (nova : String)
  | concluir (tid : Int) (now : Int)
  | arquivar (now : Int)
  | excluir (tid : Int)
  | relatorio
  | relatorioArquivadas
deriving Repr, DecidableEq

/-- One menu dispatch (lines 482-506).  `gerar_id` hands out `ID_COUNTER` and
increments it, and is reached exactly when creation passes validation; the
report options only read the state. -/
def Sistema.step (s : Sistema) : Op → Sistema
  | .criar titulo descricao prio orig now =>
    match criar_tarefa titulo descricao prio orig s.idCounter now with
    | none => s
    | some t => { s with tasks := s.tasks ++ [t], idCounter := s.idCounter + 1 }
  | .verificarUrgencia => { s with tasks := (verificar_urgencia s.tasks).2 }
  | .atualizarPrioridade tid nova =>
    { s with tasks := (atualizar_prioridade s.tasks tid nova).2 }
  | .concluir tid now => { s with tasks := (concluir_tarefa s.tasks tid now).2 }
  | .arquivar now =>
    let r := arquivar_tarefas_antigas s.tasks s.archived now
    { s with tasks := r.2.1, archived := r.2.2 }
  | .excluir tid => { s with tasks := (excluir_tarefa s.tasks tid).2 }
  | .relatorio => s
  | .relatorioArquivadas => s

/-- Run a sequence of menu operations. -/
def Sistema.run (s : Sistema) : List Op → Sistema
  | [] => s
  | op :: ops => (s.step op).run ops

/-- Ids assigned by successful creations along a run, in creation order. -/
def Sistema.createdIds (s : Sistema) : List Op → List Int
  | [] => []
  | op :: ops =>
    match op with
    | .criar titulo descricao prio orig now =>
      match criar_tarefa titulo descricao prio orig s.idCounter now with
      | none => (s.step op).createdIds ops
      | some _ => s.idCounter :: (s.step op).createdIds ops
    | _ => (s.step op).createdIds ops

/-! ### Casing lemmas

Finite facts about the pair table, checked by `decide`, lifted to the casing
functions. -/

theorem pairsUpperNotKey :
    ∀ p ∈ lowerUpperPairs, lowerUpperPairs.find? (fun q => q.1 == p.2) = none := by
  decide

theorem pairsLowerNotValue :
    ∀ p ∈ lowerUpperPairs, lowerUpperPairs.find? (fun q => q.2 == p.1) = none := by
  decide

theorem pairsKeyFindsSelf :
    ∀ p ∈ lowerUpperPairs, lowerUpperPairs.find? (fun q => q.1 == p.1) = some p := by
  decide

theorem pairsValueFindsSelf :
    ∀ p ∈ lowerUpperPairs, lowerUpperPairs.find? (fun q => q.2 == p.2) = some p := by
  decide

theorem pairsAlpha :
    ∀ p ∈ lowerUpperPairs, pyIsAlpha p.1 = true ∧ pyIsAlpha p.2 = true := by
  decide

theorem pyToUpper_idem (c : Char) : pyToUpper (pyToUpper c) = pyToUpper c := by
  unfold pyToUpper
  cases hf : lowerUpperPairs.find? (fun q => q.1 == c) with
  | none => simp [hf]
  | some p =>
    have hmem := List.mem_of_find?_eq_some hf
    simp [pairsUpperNotKey p hmem]

theorem pyToLower_idem (c : Char) : pyToLower (pyToLower c) = pyToLower c := by
  unfold pyToLower
  cases hf : lowerUpperPairs.find? (fun q => q.2 == c) with
  | none => simp [hf]
  | some p =>
    have hmem := List.mem_of_find?_eq_some hf
    simp [pairsLowerNotValue p hmem]

theorem pyToLower_pyToUpper (c : Char) :
    pyToLower (pyToUpper c) = pyToLower c := by
  unfold pyToUpper
  cases hf : lowerUpperPairs.find? (fun q => q.1 == c) with
  | none => simp
  | some p =>
    have hmem := List.mem_of_find?_eq_some hf
    have hc : p.1 = c := by simpa using List.find?_some hf
    subst hc
    show pyToLower p.2 = pyToLower p.1
    unfold pyToLower
    rw [pairsValueFindsSelf p hmem, pairsLowerNotValue p hmem]
    rfl

theorem pyToUpper_pyToLower (c : Char) :
    pyToUpper (pyToLower c) = pyToUpper c := by
  unfold pyToLower
  cases hf : lowerUpperPairs.find? (fun q => q.2 == c) with
  | none => simp
  | some p =>
    have hmem := List.mem_of_find?_eq_some hf
    have hc : p.2 = c := by simpa using List.find?_some hf
    subst hc
    show pyToUpper p.1 = pyToUpper p.2
    unfold pyToUpper
    rw [pairsKeyFindsSelf p hmem, pairsUpperNotKey p hmem]
    rfl

theorem pyIsAlpha_pyToUpper (c : Char) :
    pyIsAlpha (pyToUpper c) = pyIsAlpha c := by
  unfold pyToUpper
  cases hf : lowerUpperPairs.find? (fun q => q.1 == c) with
  | none => simp
  | some p =>
    have hmem := List.mem_of_find?_eq_some hf
    have hc : p.1 = c := by simpa using List.find?_some hf
    show pyIsAlpha p.2 = pyIsAlpha c
    rw [(pairsAlpha p hmem).2, ← hc, (pairsAlpha p hmem).1]

theorem pyIsAlpha_pyToLower (c : Char) :
    pyIsAlpha (pyToLower c) = pyIsAlpha c := by
  unfold pyToLower
  cases hf : lowerUpperPairs.find? (fun q => q.2 == c) with
  | none => simp
  | some p =>
    have hmem := List.mem_of_find?_eq_some hf
    have hc : p.2 = c := by simpa using List.find?_some hf
    show pyIsAlpha p.1 = pyIsAlpha c
    rw [(pairsAlpha p hmem).1, ← hc, (pairsAlpha p hmem).2]

theorem notAlpha_pyToLower {c : Char} (h : pyIsAlpha c = false) :
    pyToLower c = c := by
  have h' : lowerUpperPairs.any (fun p => p.1 == c || p.2 == c) = false := h
  have hnone : lowerUpperPairs.find? (fun q => q.2 == c) = none := by
    rw [List.find?_eq_none]
    intro p hp
    have h2 := List.any_eq_false.mp h' p hp
    simp only [Bool.or_eq_true, not_or] at h2
    simp [h2.2]
  unfold pyToLower
  rw [hnone]
  rfl

theorem notAlpha_pyToUpper {c : Char} (h : pyIsAlpha c = false) :
    pyToUpper c = c := by
  have h' : lowerUpperPairs.any (fun p => p.1 == c || p.2 == c) = false := h
  have hnone : lowerUpperPairs.find? (fun q => q.1 == c) = none := by
    rw [List.find?_eq_none]
    intro p hp
    have h2 := List.any_eq_false.mp h' p hp
    simp only [Bool.or_eq_true, not_or] at h2
    simp [h2.1]
  unfold pyToUpper
  rw [hnone]
  rfl

theorem map_pyToLower_idem (l : List Char) :
    (l.map pyToLower).map pyToLower = l.map pyToLower := by
  induction l with
  | nil => rfl
  | cons c cs ih => simp only [List.map_cons, pyToLower_idem c, ih]

theorem pyCapitalizeL_idem (l : List Char) :
    pyCapitalizeL (pyCapitalizeL l) = pyCapitalizeL l := by
  cases l with
  | nil => rfl
  | cons c cs =>
    simp only [pyCapitalizeL, pyToUpper_idem c, map_pyToLower_idem]

theorem pyCapitalize_idem (s : String) :
    pyCapitalize (pyCapitalize s) = pyCapitalize s := by
  simp [pyCapitalize, pyCapitalizeL_idem]

theorem map_pyToLower_pyCapitalizeL (l : List Char) :
    (pyCapitalizeL l).map pyToLower = l.map pyToLower := by
  cases l with
  | nil => rfl
  | cons c cs =>
    simp only [pyCapitalizeL, List.map_cons, pyToLower_pyToUpper c,
      map_pyToLower_idem]

theorem pyTitleAux_map_pyToLower (b : Bool) (l : List Char) :
    pyTitleAux b (l.map pyToLower) = pyTitleAux b l := by
  induction l generalizing b with
  | nil => rfl
  | cons c cs ih =>
    simp only [List.map_cons, pyTitleAux, pyIsAlpha_pyToLower]
    cases ha : pyIsAlpha c with
    | true => simp [ha, pyToLower_idem, pyToUpper_pyToLower, ih]
    | false => simp [ha, notAlpha_pyToLower ha, ih]

theorem pyTitleAux_idem (b : Bool) (l : List Char) :
    pyTitleAux b (pyTitleAux b l) = pyTitleAux b l := by
  induction l generalizing b with
  | nil => rfl
  | cons c cs ih =>
    cases ha : pyIsAlpha c with
    | true =>
      cases b with
      | true =>
        simp [pyTitleAux, ha, pyIsAlpha_pyToLower, pyToLower_idem, ih]
      | false =>
        simp [pyTitleAux, ha, pyIsAlpha_pyToUpper, pyToUpper_idem, ih]
    | false => simp [pyTitleAux, ha, ih]

/-- Key normalization fact: the title-cased form of a string is determined,
through `str.title` of the lowered form, by its `str.capitalize` image. -/
theorem pyTitle_determined (orig w : String)
    (hcap : pyCapitalize (pyTitle orig) = w) :
    pyTitle orig = pyTitle (pyLower w) := by
  have hw : pyCapitalizeL (pyTitleAux false orig.data) = w.data := by
    have := congrArg String.data hcap
    simpa [pyCapitalize, pyTitle] using this
  have h1 : pyTitleAux false orig.data =
      pyTitleAux false (pyTitleAux false orig.data) :=
    (pyTitleAux_idem false orig.data).symm
  have h2 : pyTitleAux false (pyTitleAux false orig.data) =
      pyTitleAux false ((pyTitleAux false orig.data).map pyToLower) :=
    (pyTitleAux_map_pyToLower false (pyTitleAux false orig.data)).symm
  have h3 : (pyTitleAux false orig.data).map pyToLower =
      (pyCapitalizeL (pyTitleAux false orig.data)).map pyToLower :=
    (map_pyToLower_pyCapitalizeL (pyTitleAux false orig.data)).symm
  simp only [pyTitle, pyLower]
  rw [h1, h2, h3, hw]

/-! ### List helper lemmas -/

theorem updateFirst_decomp (p : Tarefa → Bool) (f : Tarefa → Tarefa)
    {l : List Tarefa} {x : Tarefa} (h : l.find? p = some x) :
    ∃ pre post, l = pre ++ x :: post ∧ (∀ u ∈ pre, p u = false) ∧
      p x = true ∧ updateFirst p f l = pre ++ f x :: post := by
  induction l with
  | nil => simp at h
  | cons t ts ih =>
    cases hp : p t with
    | true =>
      rw [List.find?_cons_of_pos _ hp] at h
      obtain rfl : t = x := by injection h
      exact ⟨[], ts, by simp [updateFirst, hp]⟩
    | false =>
      rw [List.find?_cons_of_neg _ (by simp [hp])] at h
      obtain ⟨pre, post, hl, hpre, hx, hup⟩ := ih h
      refine ⟨t :: pre, post, by simp [hl], ?_, hx, ?_⟩
      · intro u hu
        rcases List.mem_cons.mp hu with rfl | hu
        · exact hp
        · exact hpre u hu
      · simp [updateFirst, hp, hup]

theorem updateFirst_of_find?_none (p : Tarefa → Bool) (f : Tarefa → Tarefa)
    {l : List Tarefa} (h : l.find? p = none) : updateFirst p f l = l := by
  induction l with
  | nil => rfl
  | cons t ts ih =>
    rw [List.find?_cons] at h
    cases hp : p t with
    | true => simp [hp] at h
    | false =>
      rw [hp] at h
      simp [updateFirst, hp, ih h]

theorem find?_append_middle (p : Tarefa → Bool) (pre : List Tarefa)
    (y : Tarefa) (post : List Tarefa) (hpre : ∀ u ∈ pre, p u = false)
    (hy : p y = true) : (pre ++ y :: post).find? p = some y := by
  induction pre with
  | nil => simp [List.find?_cons, hy]
  | cons t ts ih =>
    have ht := hpre t (List.mem_cons_self t ts)
    simp only [List.cons_append, List.find?_cons, ht]
    exact ih (fun u hu => hpre u (List.mem_cons_of_mem t hu))

theorem updateFirst_map_id (p : Tarefa → Bool) (f : Tarefa → Tarefa)
    (hf : ∀ t, (f t).id = t.id) (l : List Tarefa) :
    (updateFirst p f l).map Tarefa.id = l.map Tarefa.id := by
  induction l with
  | nil => rfl
  | cons t ts ih =>
    cases hp : p t with
    | true => simp [updateFirst, hp, hf t]
    | false => simp [updateFirst, hp, ih]

theorem any_filter (q r : Tarefa → Bool) (l : List Tarefa) :
    (l.filter q).any r = l.any (fun t => q t && r t) := by
  induction l with
  | nil => rfl
  | cons t ts ih =>
    by_cases h : q t <;> simp [List.filter_cons, h, ih]

/-! ### Claim theorems -/

/-- C4: when both `created_at` and `completed_at` parse, the duration shown by
`mostrar_detalhes_tarefa` is the calendar-naive difference decomposed into
days, hours, minutes and seconds; in particular a span of 1 day 2 hours
3 minutes 4 seconds yields exactly `(1, 2, 3, 4)`; when `completed_at` is
absent or either timestamp is unparsable no duration is produced. -/
theorem duracao_execucao_correta (t : Tarefa) (T : Int) :
    (t.data_criacao = TsStr.valid T ∧
        t.data_conclusao = some (TsStr.valid (T + 93784)) →
      compute_duration t = some (1, 2, 3, 4)) ∧
    (∀ ini fim, t.data_criacao = TsStr.valid ini →
      t.data_conclusao = some (TsStr.valid fim) →
      ∃ d h m sec, compute_duration t = some (d, h, m, sec) ∧
        d * 86400 + (h : Int) * 3600 + (m : Int) * 60 + (sec : Int) =
          fim - ini ∧ h < 24 ∧ m < 60 ∧ sec < 60) ∧
    (t.data_conclusao = none → compute_duration t = none) ∧
    (∀ s, t.data_conclusao = some (TsStr.invalid s) →
      compute_duration t = none) ∧
    (∀ s d, t.data_criacao = TsStr.invalid s →
      t.data_conclusao = some (TsStr.valid d) → compute_duration t = none) := by
  refine ⟨?_, ?_, ?_, ?_, ?_⟩
  · rintro ⟨h1, h2⟩
    simp only [compute_duration, h1, h2, parse_iso, TsStr.truthy, if_true]
    have hd : T + 93784 - T = (93784 : Int) := by omega
    rw [hd]
    decide
  · intro ini fim h1 h2
    simp only [compute_duration, h1, h2, parse_iso, TsStr.truthy, if_true]
    refine ⟨(fim - ini).fdiv segundosPorDia,
      ((fim - ini).fmod segundosPorDia).toNat / 3600,
      ((fim - ini).fmod segundosPorDia).toNat % 3600 / 60,
      ((fim - ini).fmod segundosPorDia).toNat % 3600 % 60, rfl, ?_, ?_, ?_, ?_⟩
    · have heq := Int.fdiv_add_fmod (fim - ini) segundosPorDia
      have hnn : 0 ≤ (fim - ini).fmod segundosPorDia :=
        Int.fmod_nonneg' (fim - ini) (by norm_num [segundosPorDia])
      have hlt : (fim - ini).fmod segundosPorDia < 86400 :=
        Int.fmod_lt_of_pos (fim - ini) (by norm_num [segundosPorDia])
      have htn : ((fim - ini).fmod segundosPorDia).toNat =
          (fim - ini).fmod segundosPorDia := Int.toNat_of_nonneg hnn
      simp only [segundosPorDia] at heq htn hlt hnn ⊢
      omega
    · have hlt : (fim - ini).fmod segundosPorDia < 86400 :=
        Int.fmod_lt_of_pos (fim - ini) (by norm_num [segundosPorDia])
      omega
    · omega
    · omega
  · intro h
    simp [compute_duration, h]
  · intro s h
    simp only [compute_duration, h]
    by_cases hs : s = ""
    · simp [TsStr.truthy, hs]
    · simp only [TsStr.truthy, hs, decide_not, if_pos, parse_iso]
      cases parse_iso t.data_criacao <;> simp
  · intro s d h1 h2
    simp [compute_duration, h1, h2, parse_iso, TsStr.truthy]

/-- Witness for C4 at a concrete task: creation at instant 0, completion at
instant 93784, duration `(1, 2, 3, 4)`. -/
theorem duracao_execucao_correta_witness :
    compute_duration
      { id := 1, titulo := "Fix", descricao := "", prioridade := "Alta",
        status := "Concluída", origem := "Telefone",
        data_criacao := TsStr.valid 0,
        data_conclusao := some (TsStr.valid 93784) } = some (1, 2, 3, 4) :=
  (duracao_execucao_correta
    { id := 1, titulo := "Fix", descricao := "", prioridade := "Alta",
      status := "Concluída", origem := "Telefone",
      data_criacao := TsStr.valid 0,
      data_conclusao := some (TsStr.valid 93784) } 0).1 ⟨rfl, by norm_num⟩

/-- C8: the archived-tasks report lists exactly the archived records whose
status is not `Excluída`, in stored order (a sublist of the archived
collection), and the report operation leaves the whole state unchanged, so an
omitted `Excluída` record remains in the underlying archived collection. -/
theorem relatorio_arquivadas_correto (archived : List Tarefa) :
    List.Sublist (relatorio_arquivadas archived) archived ∧
    (∀ t, t ∈ relatorio_arquivadas archived ↔
      t ∈ archived ∧ t.status ≠ "Excluída") ∧
    (∀ s : Sistema, s.step Op.relatorioArquivadas = s) := by
  refine ⟨List.filter_sublist archived, fun t => ?_, fun s => rfl⟩
  simp [relatorio_arquivadas, List.mem_filter, bne_iff_ne]

/-- C5: priority update is validated case-insensitively before mutating:
for an id that resolves, the inputs `urgente` and `Urgente` produce the same
result and state, while `Crítica` is rejected with the whole state
unchanged. -/
theorem atualizar_prioridade_validada (tasks : List Tarefa) (tid : Int)
    (t : Tarefa) (h : encontrar_tarefa_por_id tasks tid = some t) :
    atualizar_prioridade tasks tid "urgente" =
      atualizar_prioridade tasks tid "Urgente" ∧
    atualizar_prioridade tasks tid "Crítica" =
      (AtualizarResultado.prioridadeInvalida, tasks) := by
  have h1 : pyCapitalize "urgente" = "Urgente" := by decide
  have h2 : pyCapitalize "Urgente" = "Urgente" := by decide
  have h4 : validar_prioridade (pyCapitalize "Crítica") = false := by decide
  constructor
  · simp [atualizar_prioridade, h, h1, h2]
  · simp [atualizar_prioridade, h, h4]

/-- Witness for C5 on a one-task list. -/
theorem atualizar_prioridade_validada_witness :
    atualizar_prioridade
      [{ id := 1, titulo := "Fix", descricao := "", prioridade := "Baixa",
         status := "Pendente", origem := "Telefone",
         data_criacao := TsStr.valid 0, data_conclusao := none }] 1 "Crítica" =
    (AtualizarResultado.prioridadeInvalida,
     [{ id := 1, titulo := "Fix", descricao := "", prioridade := "Baixa",
        status := "Pendente", origem := "Telefone",
        data_criacao := TsStr.valid 0, data_conclusao := none }]) :=
  (atualizar_prioridade_validada _ 1
    { id := 1, titulo := "Fix", descricao := "", prioridade := "Baixa",
      status := "Pendente", origem := "Telefone",
      data_criacao := TsStr.valid 0, data_conclusao := none }
    (by decide)).2

/-- Shared core of C3 and C9: completing a found task that is not yet
`Concluída` succeeds and the task is re-found with status `Concluída` and
`data_conclusao` stamped with the current instant. -/
theorem concluir_tarefa_spec (tasks : List Tarefa) (tid : Int)
    (t : Tarefa) (t1 : Int)
    (h : encontrar_tarefa_por_id tasks tid = some t)
    (hst : t.status ≠ "Concluída") :
    (concluir_tarefa tasks tid t1).1 = ConcluirResultado.ok ∧
    encontrar_tarefa_por_id (concluir_tarefa tasks tid t1).2 tid =
      some { t with status := "Concluída",
                    data_conclusao := some (TsStr.valid t1) } := by
  have hne : (t.status == "Concluída") = false := by
    simpa using hst
  obtain ⟨pre, post, _, hpre, hx, hup⟩ :=
    updateFirst_decomp (fun u => u.id == tid)
      (fun u => { u with data_conclusao := some (TsStr.valid t1),
                         status := "Concluída" }) h
  have hfst : (concluir_tarefa tasks tid t1).1 = ConcluirResultado.ok := by
    simp [concluir_tarefa, h, hne]
  have hsnd : (concluir_tarefa tasks tid t1).2 =
      updateFirst (fun u => u.id == tid)
        (fun u => { u with data_conclusao := some (TsStr.valid t1),
                           status := "Concluída" }) tasks := by
    simp [concluir_tarefa, h, hne]
  have hfind : encontrar_tarefa_por_id (concluir_tarefa tasks tid t1).2 tid =
      some { t with status := "Concluída",
                    data_conclusao := some (TsStr.valid t1) } := by
    rw [hsnd, hup]
    exact find?_append_middle _ pre _ post hpre (by simpa using hx)
  exact ⟨hfst, hfind⟩

/-- C3: completion stamps `completed_at = now` and status `Concluída` on its
first invocation, and a second invocation on the same id is a no-op that
reports `already completed` and leaves the state (so the timestamp of the
first invocation) unchanged. -/
theorem concluir_tarefa_idempotente (tasks : List Tarefa) (tid : Int)
    (t : Tarefa) (t1 t2 : Int)
    (h : encontrar_tarefa_por_id tasks tid = some t)
    (hst : t.status ≠ "Concluída") :
    (concluir_tarefa tasks tid t1).1 = ConcluirResultado.ok ∧
    encontrar_tarefa_por_id (concluir_tarefa tasks tid t1).2 tid =
      some { t with status := "Concluída",
                    data_conclusao := some (TsStr.valid t1) } ∧
    concluir_tarefa (concluir_tarefa tasks tid t1).2 tid t2 =
      (ConcluirResultado.jaConcluida, (concluir_tarefa tasks tid t1).2) := by
  obtain ⟨hfst, hfind⟩ := concluir_tarefa_spec tasks tid t t1 h hst
  refine ⟨hfst, hfind, ?_⟩
  revert hfind
  generalize (concluir_tarefa tasks tid t1).2 = l
  intro hfind
  simp [concluir_tarefa, hfind]

/-- Witness for C3 on a one-task list. -/
theorem concluir_tarefa_idempotente_witness :
    concluir_tarefa
      (concluir_tarefa
        [{ id := 1, titulo := "Fix", descricao := "", prioridade := "Baixa",
           status := "Pendente", origem := "Telefone",
           data_criacao := TsStr.valid 0, data_conclusao := none }] 1 5).2
      1 9 =
    (ConcluirResultado.jaConcluida,
     (concluir_tarefa
        [{ id := 1, titulo := "Fix", descricao := "", prioridade := "Baixa",
           status := "Pendente", origem := "Telefone",
           data_criacao := TsStr.valid 0, data_conclusao := none }] 1 5).2) :=
  (concluir_tarefa_idempotente _ 1
    { id := 1, titulo := "Fix", descricao := "", prioridade := "Baixa",
      status := "Pendente", origem := "Telefone",
      data_criacao := TsStr.valid 0, data_conclusao := none }
    5 9 (by decide) (by decide)).2.2

/-- C9: completion only guards against status `Concluída`, so a logically
deleted (`Excluída`) active task is completed normally: status becomes
`Concluída` and `completed_at` is stamped. -/
theorem concluir_tarefa_apos_exclusao (tasks : List Tarefa) (tid : Int)
    (t : Tarefa) (now : Int)
    (h : encontrar_tarefa_por_id tasks tid = some t)
    (hst : t.status = "Excluída") :
    (concluir_tarefa tasks tid now).1 = ConcluirResultado.ok ∧
    encontrar_tarefa_por_id (concluir_tarefa tasks tid now).2 tid =
      some { t with status := "Concluída",
                    data_conclusao := some (TsStr.valid now) } := by
  have hne : t.status ≠ "Concluída" := by
    rw [hst]
    decide
  exact concluir_tarefa_spec tasks tid t now h hne

/-- Witness for C9 on a one-task list whose task is `Excluída`. -/
theorem concluir_tarefa_apos_exclusao_witness :
    (concluir_tarefa
      [{ id := 1, titulo := "Fix", descricao := "", prioridade := "Baixa",
         status := "Excluída", origem := "Telefone",
         data_criacao := TsStr.valid 0, data_conclusao := none }] 1 5).1 =
    ConcluirResultado.ok :=
  (concluir_tarefa_apos_exclusao _ 1
    { id := 1, titulo := "Fix", descricao := "", prioridade := "Baixa",
      status := "Excluída", origem := "Telefone",
      data_criacao := TsStr.valid 0, data_conclusao := none }
    5 (by decide) (by decide)).1

/-- Selection test of the archival sweep, in propositional form. -/
theorem deve_arquivar_iff (limite : Int) (t : Tarefa) :
    deve_arquivar limite t = true ↔
      t.status = "Concluída" ∧
        ∃ d, t.data_conclusao = some (TsStr.valid d) ∧ d < limite := by
  unfold deve_arquivar
  cases hdc : t.data_conclusao with
  | none => simp
  | some ts =>
    cases ts with
    | valid d => simp [TsStr.truthy, parse_iso]
    | invalid s => simp [TsStr.truthy, parse_iso]

/-- C1: the archival sweep moves exactly the active tasks that are
`Concluída` with a parsable `completed_at` strictly older than `now - 7`
days: such a task leaves the active list and joins the archived list, while
a task failing any of the conditions (status, recency, absent or unparsable
timestamp) stays active and is not added to the archive. -/
theorem arquivamento_correto (tasks archived : List Tarefa) (agora : Int)
    (t : Tarefa) (ht : t ∈ tasks) :
    ((t.status = "Concluída" ∧ ∃ d, t.data_conclusao = some (TsStr.valid d) ∧
        d < agora - 7 * segundosPorDia) →
      t ∉ (arquivar_tarefas_antigas tasks archived agora).2.1 ∧
      t ∈ (arquivar_tarefas_antigas tasks archived agora).2.2) ∧
    ((t.status ≠ "Concluída" ∨ t.data_conclusao = none ∨
        (∃ s, t.data_conclusao = some (TsStr.invalid s)) ∨
        (∃ d, t.data_conclusao = some (TsStr.valid d) ∧
          agora - 7 * segundosPorDia ≤ d)) →
      t ∈ (arquivar_tarefas_antigas tasks archived agora).2.1 ∧
      (t ∈ (arquivar_tarefas_antigas tasks archived agora).2.2 ↔
        t ∈ archived)) := by
  constructor
  · intro hsel
    have hP : deve_arquivar (agora - 7 * segundosPorDia) t = true :=
      (deve_arquivar_iff _ t).mpr hsel
    have hmem : t ∈ tasks.filter (deve_arquivar (agora - 7 * segundosPorDia)) :=
      List.mem_filter.mpr ⟨ht, hP⟩
    cases ham : tasks.filter (deve_arquivar (agora - 7 * segundosPorDia)) with
    | nil => rw [ham] at hmem; cases hmem
    | cons hd tl =>
      rw [ham] at hmem
      constructor
      · intro hin
        simp only [arquivar_tarefas_antigas, ham] at hin
        have := (List.mem_filter.mp hin).2
        rw [decide_eq_true_eq] at this
        exact this hmem
      · simp only [arquivar_tarefas_antigas, ham]
        exact List.mem_append.mpr (Or.inr hmem)
  · intro hns
    have hP : deve_arquivar (agora - 7 * segundosPorDia) t = false := by
      rw [← Bool.not_eq_true, deve_arquivar_iff]
      rintro ⟨hC, d, hd, hlt⟩
      rcases hns with h | h | ⟨s, h⟩ | ⟨d', h, hge⟩
      · exact h hC
      · rw [h] at hd; cases hd
      · rw [h] at hd; cases hd
      · rw [h] at hd
        have : d' = d := by injection hd with h2; injection h2
        omega
    have hnmem : t ∉ tasks.filter (deve_arquivar (agora - 7 * segundosPorDia)) := by
      intro hmem
      rw [(List.mem_filter.mp hmem).2] at hP
      cases hP
    cases ham : tasks.filter (deve_arquivar (agora - 7 * segundosPorDia)) with
    | nil => simp only [arquivar_tarefas_antigas, ham]; exact ⟨ht, trivial⟩
    | cons hd tl =>
      rw [ham] at hnmem
      constructor
      · simp only [arquivar_tarefas_antigas, ham]
        exact List.mem_filter.mpr ⟨ht, decide_eq_true hnmem⟩
      · simp only [arquivar_tarefas_antigas, ham, List.mem_append]
        exact ⟨fun h => h.resolve_right hnmem, Or.inl⟩

/-- Witness for C1: one task completed at instant 0, swept at instant
`7 * 86400 + 1`, leaves the active list and is archived. -/
theorem arquivamento_correto_witness :
    { id := 1, titulo := "Fix", descricao := "", prioridade := "Alta",
      status := "Concluída", origem := "Telefone",
      data_criacao := TsStr.valid 0,
      data_conclusao := some (TsStr.valid 0) } ∉
      (arquivar_tarefas_antigas
        [{ id := 1, titulo := "Fix", descricao := "", prioridade := "Alta",
           status := "Concluída", origem := "Telefone",
           data_criacao := TsStr.valid 0,
           data_conclusao := some (TsStr.valid 0) }] [] 604801).2.1 ∧
    { id := 1, titulo := "Fix", descricao := "", prioridade := "Alta",
      status := "Concluída", origem := "Telefone",
      data_criacao := TsStr.valid 0,
      data_conclusao := some (TsStr.valid 0) } ∈
      (arquivar_tarefas_antigas
        [{ id := 1, titulo := "Fix", descricao := "", prioridade := "Alta",
           status := "Concluída", origem := "Telefone",
           data_criacao := TsStr.valid 0,
           data_conclusao := some (TsStr.valid 0) }] [] 604801).2.2 :=
  (arquivamento_correto _ [] 604801 _ (by decide)).1
    ⟨rfl, 0, rfl, by norm_num [segundosPorDia]⟩

/-- C2: when `pr` is the first level of `PRIORITY_ORDER` that has a pending
task, the urgency selection picks the first pending task of that level in
original list order, returns it with status `Fazendo`, and only that position
of the list changes; with no pending task it returns nothing and changes
nothing. -/
theorem verificar_urgencia_correta (tasks : List Tarefa) :
    (∀ pr, PRIORITY_ORDER.find?
        (fun pr => tasks.any
          (fun t => t.status == "Pendente" && t.prioridade == pr)) = some pr →
      ∃ pre sel post,
        tasks = pre ++ sel :: post ∧
        sel.status = "Pendente" ∧ sel.prioridade = pr ∧
        (∀ u ∈ pre, ¬ (u.status = "Pendente" ∧ u.prioridade = pr)) ∧
        verificar_urgencia tasks =
          (some { sel with status := "Fazendo" },
           pre ++ { sel with status := "Fazendo" } :: post)) ∧
    ((∀ t ∈ tasks, t.status ≠ "Pendente") →
      verificar_urgencia tasks = (none, tasks)) := by
  have hpred : (fun pr => (tasks.filter
        (fun t => t.status == "Pendente")).any
          (fun t => t.prioridade == pr)) =
      (fun pr => tasks.any
        (fun t => t.status == "Pendente" && t.prioridade == pr)) :=
    funext (fun pr => any_filter _ _ tasks)
  constructor
  · intro pr hpr
    have hany0 := List.find?_some hpr
    have hany : tasks.any
        (fun t => t.status == "Pendente" && t.prioridade == pr) = true := hany0
    obtain ⟨x, hxmem, hx⟩ := List.any_eq_true.mp hany
    have hsome : (tasks.find?
        (fun t => t.status == "Pendente" && t.prioridade == pr)).isSome :=
      List.find?_isSome.mpr ⟨x, hxmem, hx⟩
    obtain ⟨sel, hsel⟩ := Option.isSome_iff_exists.mp hsome
    obtain ⟨pre, post, hl, hpre, hxsel, hup⟩ :=
      updateFirst_decomp _ (fun t => { t with status := "Fazendo" }) hsel
    refine ⟨pre, sel, post, hl, ?_, ?_, ?_, ?_⟩
    · have := (Bool.and_eq_true _ _).mp hxsel
      simpa using this.1
    · have := (Bool.and_eq_true _ _).mp hxsel
      simpa using this.2
    · intro u hu hcon
      have := hpre u hu
      simp [hcon.1, hcon.2] at this
    · have hxfil : x ∈ tasks.filter (fun t => t.status == "Pendente") :=
        List.mem_filter.mpr ⟨hxmem, ((Bool.and_eq_true _ _).mp hx).1⟩
      cases hfil : tasks.filter (fun t => t.status == "Pendente") with
      | nil => rw [hfil] at hxfil; cases hxfil
      | cons p0 ps =>
        simp only [verificar_urgencia]
        rw [hpred, hpr]
        simp only [hfil, hsel, hup, Option.map_some']
  · intro hnp
    have hfil : tasks.filter (fun t => t.status == "Pendente") = [] := by
      rw [List.filter_eq_nil_iff]
      intro t htm
      simpa using hnp t htm
    simp only [verificar_urgencia, hfil]

/-- Witness for C2 on the spec's example: pending priorities
`[Baixa, Urgente, Alta]` in insertion order select the `Urgente` task. -/
theorem verificar_urgencia_correta_witness :
    ∃ pre sel post,
      [{ id := 1, titulo := "A", descricao := "", prioridade := "Baixa",
         status := "Pendente", origem := "Telefone",
         data_criacao := TsStr.valid 0, data_conclusao := none },
       { id := 2, titulo := "B", descricao := "", prioridade := "Urgente",
         status := "Pendente", origem := "Telefone",
         data_criacao := TsStr.valid 0, data_conclusao := none },
       { id := 3, titulo := "C", descricao := "", prioridade := "Alta",
         status := "Pendente", origem := "Telefone",
         data_criacao := TsStr.valid 0, data_conclusao := none }] =
        pre ++ sel :: post ∧
      sel.status = "Pendente" ∧ sel.prioridade = "Urgente" ∧
      (∀ u ∈ pre, ¬ (u.status = "Pendente" ∧ u.prioridade = "Urgente")) ∧
      verificar_urgencia
        [{ id := 1, titulo := "A", descricao := "", prioridade := "Baixa",
           status := "Pendente", origem := "Telefone",
           data_criacao := TsStr.valid 0, data_conclusao := none },
         { id := 2, titulo := "B", descricao := "", prioridade := "Urgente",
           status := "Pendente", origem := "Telefone",
           data_criacao := TsStr.valid 0, data_conclusao := none },
         { id := 3, titulo := "C", descricao := "", prioridade := "Alta",
           status := "Pendente", origem := "Telefone",
           data_criacao := TsStr.valid 0, data_conclusao := none }] =
        (some { sel with status := "Fazendo" },
         pre ++ { sel with status := "Fazendo" } :: post) :=
  (verificar_urgencia_correta _).1 "Urgente" (by decide)

/-- C10: when some task is pending but no pending task carries a priority
from `PRIORITY_ORDER`, the selection does not come back empty: it falls back
to the first pending task in original order and sets it to `Fazendo`. -/
theorem verificar_urgencia_reserva (tasks : List Tarefa)
    (h1 : ∃ t ∈ tasks, t.status = "Pendente")
    (h2 : ∀ t ∈ tasks, t.status = "Pendente" →
      t.prioridade ∉ PRIORITY_ORDER) :
    ∃ pre sel post,
      tasks = pre ++ sel :: post ∧ sel.status = "Pendente" ∧
      (∀ u ∈ pre, u.status ≠ "Pendente") ∧
      verificar_urgencia tasks =
        (some { sel with status := "Fazendo" },
         pre ++ { sel with status := "Fazendo" } :: post) := by
  obtain ⟨x, hxmem, hx⟩ := h1
  have hnone : PRIORITY_ORDER.find?
      (fun pr => (tasks.filter (fun t => t.status == "Pendente")).any
        (fun t => t.prioridade == pr)) = none := by
    rw [List.find?_eq_none]
    intro pr hprmem hanyp
    obtain ⟨y, hymem, hy⟩ := List.any_eq_true.mp hanyp
    obtain ⟨hymem', hyst⟩ := List.mem_filter.mp hymem
    have hypr : y.prioridade = pr := by simpa using hy
    exact h2 y hymem' (by simpa using hyst) (hypr ▸ hprmem)
  have hxfil : x ∈ tasks.filter (fun t => t.status == "Pendente") :=
    List.mem_filter.mpr ⟨hxmem, by simpa using hx⟩
  have hsome : (tasks.find? (fun t => t.status == "Pendente")).isSome :=
    List.find?_isSome.mpr ⟨x, hxmem, by simpa using hx⟩
  obtain ⟨sel, hsel⟩ := Option.isSome_iff_exists.mp hsome
  obtain ⟨pre, post, hl, hpre, hxsel, hup⟩ :=
    updateFirst_decomp _ (fun t => { t with status := "Fazendo" }) hsel
  cases hfil : tasks.filter (fun t => t.status == "Pendente") with
  | nil => rw [hfil] at hxfil; cases hxfil
  | cons p0 ps =>
    refine ⟨pre, sel, post, hl, by simpa using hxsel, ?_, ?_⟩
    · intro u hu
      have := hpre u hu
      simpa using this
    · simp only [verificar_urgencia]
      rw [hnone]
      simp only [hfil, hsel, hup, Option.map_some']

/-- Witness for C10: a single pending task with the out-of-set priority
`Desconhecida` is still selected and set to `Fazendo`. -/
theorem verificar_urgencia_reserva_witness :
    ∃ pre sel post,
      [{ id := 1, titulo := "A", descricao := "", prioridade := "Desconhecida",
         status := "Pendente", origem := "Telefone",
         data_criacao := TsStr.valid 0, data_conclusao := none }] =
        pre ++ sel :: post ∧
      sel.status = "Pendente" ∧
      (∀ u ∈ pre, u.status ≠ "Pendente") ∧
      verificar_urgencia
        [{ id := 1, titulo := "A", descricao := "", prioridade := "Desconhecida",
           status := "Pendente", origem := "Telefone",
           data_criacao := TsStr.valid 0, data_conclusao := none }] =
        (some { sel with status := "Fazendo" },
         pre ++ { sel with status := "Fazendo" } :: post) :=
  verificar_urgencia_reserva _
    ⟨{ id := 1, titulo := "A", descricao := "", prioridade := "Desconhecida",
       status := "Pendente", origem := "Telefone",
       data_criacao := TsStr.valid 0, data_conclusao := none },
     by decide, rfl⟩
    (by decide)

/-- Counterexample to C6 as stated: the accepted origin spelling `E-mail`
passes validation but is stored as `E-Mail` (Python `str.title` uppercases
the letter after the hyphen), a value outside the documented closed set
`{E-mail, Telefone, Chamado do Sistema}`. -/
theorem criar_tarefa_origem_contraexemplo :
    (criar_tarefa "Fix" "" "Alta" "E-mail" 1 0).map Tarefa.origem =
      some "E-Mail" ∧ "E-Mail" ∉ ORIGENS := by
  constructor
  · decide
  · decide

/-- C6 amended: every task that passes creation validation stores a priority
from the closed set `{Urgente, Alta, Média, Baixa}` and an origin from
`{E-Mail, Telefone, Chamado do Sistema}` — `E-Mail` with a capital `M`, as
`str.title` produces it, instead of the menu's spelling `E-mail`; `chamado`
and `chamadodosistema` spellings still normalize to `Chamado do Sistema`. -/
theorem criar_tarefa_dominios (titulo descricao prio orig : String)
    (tid now : Int) (t : Tarefa)
    (h : criar_tarefa titulo descricao prio orig tid now = some t) :
    t.prioridade ∈ PRIORITIES ∧
    t.origem ∈ ["E-Mail", "Telefone", "Chamado do Sistema"] := by
  simp only [criar_tarefa] at h
  split_ifs at h with h1 h2 h3 h4 h5
  · -- chamado-normalized branch
    injection h with h'
    subst h'
    refine ⟨?_, ?_⟩
    · show pyCapitalize prio ∈ PRIORITIES
      have hmem : pyCapitalize (pyCapitalize prio) ∈ PRIORITIES := by
        simpa [validar_prioridade] using h2
      rwa [pyCapitalize_idem] at hmem
    · show "Chamado do Sistema" ∈ ["E-Mail", "Telefone", "Chamado do Sistema"]
      decide
  · -- plain title-cased branch
    injection h with h'
    subst h'
    refine ⟨?_, ?_⟩
    · show pyCapitalize prio ∈ PRIORITIES
      have hmem : pyCapitalize (pyCapitalize prio) ∈ PRIORITIES := by
        simpa [validar_prioridade] using h2
      rwa [pyCapitalize_idem] at hmem
    · show pyTitle orig ∈ ["E-Mail", "Telefone", "Chamado do Sistema"]
      have homem : pyCapitalize (pyTitle orig) ∈ ORIGENS.map pyCapitalize := by
        simpa [validar_origem] using h5
      have horigens : ORIGENS.map pyCapitalize =
          ["E-mail", "Telefone", "Chamado do sistema"] := by decide
      rw [horigens] at homem
      simp only [List.mem_cons, List.not_mem_nil, or_false] at homem
      rcases homem with hw | hw | hw
      · have hti := pyTitle_determined orig "E-mail" hw
        have hc : pyTitle (pyLower "E-mail") = "E-Mail" := by decide
        rw [hti, hc]
        decide
      · have hti := pyTitle_determined orig "Telefone" hw
        have hc : pyTitle (pyLower "Telefone") = "Telefone" := by decide
        rw [hti, hc]
        decide
      · exfalso
        have hti := pyTitle_determined orig "Chamado do sistema" hw
        have hc : pyTitle (pyLower "Chamado do sistema") =
            "Chamado Do Sistema" := by decide
        rw [hc] at hti
        apply h3
        rw [hti]
        decide

/-- Witness for C6 (amended) at a concrete accepted creation. -/
theorem criar_tarefa_dominios_witness :
    ({ id := 1, titulo := "Fix", descricao := "", prioridade := "Alta",
       status := "Pendente", origem := "Telefone",
       data_criacao := TsStr.valid 0,
       data_conclusao := none } : Tarefa).prioridade ∈ PRIORITIES ∧
    ({ id := 1, titulo := "Fix", descricao := "", prioridade := "Alta",
       status := "Pendente", origem := "Telefone",
       data_criacao := TsStr.valid 0,
       data_conclusao := none } : Tarefa).origem ∈
      ["E-Mail", "Telefone", "Chamado do Sistema"] :=
  criar_tarefa_dominios "Fix" "" "alta" "telefone" 1 0 _ (by decide)

/-! ### Session invariant: id uniqueness and monotonicity (C7) -/

/-- Well-formedness of the global state: ids are pairwise distinct across the
union of the active and archived collections, and all lie below the
counter. -/
def BomEstado (s : Sistema) : Prop :=
  ((s.tasks ++ s.archived).map Tarefa.id).Nodup ∧
  ∀ t ∈ s.tasks ++ s.archived, t.id < s.idCounter

theorem maxId_aux (ts : List Tarefa) (m : Int) :
    m ≤ ts.foldl (fun m t => if t.id > m then t.id else m) m ∧
    ∀ t ∈ ts, t.id ≤ ts.foldl (fun m t => if t.id > m then t.id else m) m := by
  induction ts generalizing m with
  | nil => simp
  | cons a ts ih =>
    simp only [List.foldl_cons]
    obtain ⟨ih1, ih2⟩ := ih (if a.id > m then a.id else m)
    have hstep : m ≤ if a.id > m then a.id else m := by split <;> omega
    have hastep : a.id ≤ if a.id > m then a.id else m := by split <;> omega
    refine ⟨le_trans hstep ih1, ?_⟩
    intro t htm
    rcases List.mem_cons.mp htm with rfl | htm
    · exact le_trans hastep ih1
    · exact ih2 t htm

theorem maxId_ge (ts : List Tarefa) : ∀ t ∈ ts, t.id ≤ maxId ts :=
  (maxId_aux ts 0).2

theorem carregar_dados_bom (tasks archived : List Tarefa)
    (h0 : ((tasks ++ archived).map Tarefa.id).Nodup) :
    BomEstado (carregar_dados tasks archived) := by
  refine ⟨h0, ?_⟩
  intro t htm
  have := maxId_ge (tasks ++ archived) t htm
  simp only [carregar_dados]
  omega

theorem criar_tarefa_id (titulo descricao prio orig : String)
    (tid now : Int) (t : Tarefa)
    (h : criar_tarefa titulo descricao prio orig tid now = some t) :
    t.id = tid := by
  simp only [criar_tarefa] at h
  split_ifs at h <;> (injection h with h'; rw [← h'])

theorem ids_verificar_urgencia (tasks : List Tarefa) :
    ((verificar_urgencia tasks).2).map Tarefa.id = tasks.map Tarefa.id := by
  unfold verificar_urgencia
  cases hfil : tasks.filter (fun t => t.status == "Pendente") with
  | nil => simp only [hfil]
  | cons p0 ps =>
    simp only [hfil]
    exact updateFirst_map_id _ (fun t => { t with status := "Fazendo" })
      (fun u => rfl) tasks

theorem ids_atualizar_prioridade (tasks : List Tarefa) (tid : Int)
    (nova : String) :
    ((atualizar_prioridade tasks tid nova).2).map Tarefa.id =
      tasks.map Tarefa.id := by
  unfold atualizar_prioridade
  cases hf : encontrar_tarefa_por_id tasks tid with
  | none => rfl
  | some t =>
    by_cases hv : validar_prioridade (pyCapitalize nova) = true
    · rw [if_neg (not_not_intro hv)]
      exact updateFirst_map_id (fun u => u.id == tid)
        (fun u => { u with prioridade := pyCapitalize nova })
        (fun u => rfl) tasks
    · rw [if_pos hv]

theorem ids_concluir_tarefa (tasks : List Tarefa) (tid now : Int) :
    ((concluir_tarefa tasks tid now).2).map Tarefa.id =
      tasks.map Tarefa.id := by
  unfold concluir_tarefa
  cases hf : encontrar_tarefa_por_id tasks tid with
  | none => rfl
  | some t =>
    dsimp only
    by_cases hs : (t.status == "Concluída") = true
    · rw [if_pos hs]
    · rw [if_neg hs]
      exact updateFirst_map_id (fun u => u.id == tid)
        (fun u => { u with data_conclusao := some (TsStr.valid now),
                           status := "Concluída" })
        (fun u => rfl) tasks

theorem ids_excluir_tarefa (tasks : List Tarefa) (tid : Int) :
    ((excluir_tarefa tasks tid).2).map Tarefa.id = tasks.map Tarefa.id := by
  unfold excluir_tarefa
  cases hf : encontrar_tarefa_por_id tasks tid with
  | none => rfl
  | some t =>
    exact updateFirst_map_id (fun u => u.id == tid)
      (fun u => { u with status := "Excluída" }) (fun u => rfl) tasks

theorem bom_of_ids_eq (s : Sistema) (X : List Tarefa)
    (hX : X.map Tarefa.id = s.tasks.map Tarefa.id) (h : BomEstado s) :
    BomEstado { s with tasks := X } := by
  obtain ⟨hnd, hlt⟩ := h
  constructor
  · simpa [List.map_append, hX] using hnd
  · intro t htm
    rcases List.mem_append.mp htm with htm | htm
    · have : t.id ∈ s.tasks.map Tarefa.id := by
        rw [← hX]
        exact List.mem_map_of_mem Tarefa.id htm
      obtain ⟨u, hum, hid⟩ := List.mem_map.mp this
      rw [← hid]
      exact hlt u (List.mem_append.mpr (Or.inl hum))
    · exact hlt t (List.mem_append.mpr (Or.inr htm))

theorem perm_shuffle (K M A T : List Tarefa) (h : List.Perm (M ++ K) T) :
    List.Perm (K ++ (A ++ M)) (T ++ A) := by
  have s1 : List.Perm (K ++ (A ++ M)) (K ++ (M ++ A)) :=
    List.Perm.append_left K List.perm_append_comm
  have s2 : K ++ (M ++ A) = (K ++ M) ++ A := (List.append_assoc K M A).symm
  have s3 : List.Perm ((K ++ M) ++ A) ((M ++ K) ++ A) :=
    List.Perm.append_right A List.perm_append_comm
  have s4 : List.Perm ((M ++ K) ++ A) (T ++ A) := List.Perm.append_right A h
  exact s1.trans (s2 ▸ s3.trans s4)

theorem arquivar_perm (tasks archived : List Tarefa) (agora : Int) :
    ((arquivar_tarefas_antigas tasks archived agora).2.1 ++
      (arquivar_tarefas_antigas tasks archived agora).2.2).Perm
      (tasks ++ archived) := by
  cases ham : tasks.filter (deve_arquivar (agora - 7 * segundosPorDia)) with
  | nil =>
    simp only [arquivar_tarefas_antigas, ham]
    exact List.Perm.refl _
  | cons hd tl =>
    simp only [arquivar_tarefas_antigas, ham]
    have hkept : tasks.filter (fun t => decide (t ∉ hd :: tl)) =
        tasks.filter
          (fun t => !(deve_arquivar (agora - 7 * segundosPorDia) t)) := by
      apply List.filter_congr
      intro t htm
      rw [← ham]
      by_cases hP : deve_arquivar (agora - 7 * segundosPorDia) t = true
      · simp [hP, List.mem_filter, htm]
      · simp only [Bool.not_eq_true] at hP
        simp [hP, List.mem_filter]
    rw [hkept, ← ham]
    exact perm_shuffle _ _ archived tasks (List.filter_append_perm _ tasks)

theorem Sistema.step_bom (s : Sistema) (op : Op) (h : BomEstado s) :
    BomEstado (s.step op) := by
  obtain ⟨hnd, hlt⟩ := h
  cases op with
  | criar titulo descricao prio orig now =>
    simp only [Sistema.step]
    cases hc : criar_tarefa titulo descricao prio orig s.idCounter now with
    | none => exact ⟨hnd, hlt⟩
    | some t =>
      dsimp only
      have hid : t.id = s.idCounter :=
        criar_tarefa_id _ _ _ _ _ _ _ hc
      have hperm : ((s.tasks ++ [t]) ++ s.archived).Perm
          ((s.tasks ++ s.archived) ++ [t]) := by
        have s1 : (s.tasks ++ [t]) ++ s.archived =
            s.tasks ++ ([t] ++ s.archived) := List.append_assoc _ _ _
        have s2 : List.Perm (s.tasks ++ ([t] ++ s.archived))
            (s.tasks ++ (s.archived ++ [t])) :=
          List.Perm.append_left _ List.perm_append_comm
        have s3 : s.tasks ++ (s.archived ++ [t]) =
            (s.tasks ++ s.archived) ++ [t] := (List.append_assoc _ _ _).symm
        rw [s1, ← s3]
        exact s2
      constructor
      · rw [(hperm.map Tarefa.id).nodup_iff]
        rw [List.map_append]
        rw [List.nodup_append]
        refine ⟨hnd, List.nodup_singleton _, ?_⟩
        intro i hi hi2
        obtain ⟨u, hum, hid2⟩ := List.mem_map.mp hi
        simp only [List.map_cons, List.map_nil, List.mem_singleton] at hi2
        have := hlt u hum
        omega
      · intro u hum
        show u.id < s.idCounter + 1
        rcases (hperm.mem_iff).mp hum with hum2
        rcases List.mem_append.mp hum2 with hum3 | hum3
        · have := hlt u hum3
          omega
        · simp only [List.mem_singleton] at hum3
          rw [hum3, hid]
          omega
  | verificarUrgencia =>
    exact bom_of_ids_eq s _ (ids_verificar_urgencia s.tasks) ⟨hnd, hlt⟩
  | atualizarPrioridade tid nova =>
    exact bom_of_ids_eq s _ (ids_atualizar_prioridade s.tasks tid nova)
      ⟨hnd, hlt⟩
  | concluir tid now =>
    exact bom_of_ids_eq s _ (ids_concluir_tarefa s.tasks tid now) ⟨hnd, hlt⟩
  | excluir tid =>
    exact bom_of_ids_eq s _ (ids_excluir_tarefa s.tasks tid) ⟨hnd, hlt⟩
  | arquivar now =>
    have hperm := arquivar_perm s.tasks s.archived now
    dsimp only [Sistema.step]
    constructor
    · rw [(hperm.map Tarefa.id).nodup_iff]
      exact hnd
    · intro u hum
      exact hlt u (hperm.mem_iff.mp hum)
  | relatorio => exact ⟨hnd, hlt⟩
  | relatorioArquivadas => exact ⟨hnd, hlt⟩

theorem Sistema.run_bom (ops : List Op) (s : Sistema) (h : BomEstado s) :
    BomEstado (s.run ops) := by
  induction ops generalizing s with
  | nil => exact h
  | cons op ops ih => exact ih _ (s.step_bom op h)

theorem Sistema.step_counter_mono (s : Sistema) (op : Op) :
    s.idCounter ≤ (s.step op).idCounter := by
  cases op with
  | criar titulo descricao prio orig now =>
    simp only [Sistema.step]
    cases criar_tarefa titulo descricao prio orig s.idCounter now with
    | none => dsimp only; omega
    | some t => dsimp only; omega
  | verificarUrgencia => exact le_refl _
  | atualizarPrioridade tid nova => exact le_refl _
  | concluir tid now => exact le_refl _
  | arquivar now => exact le_refl _
  | excluir tid => exact le_refl _
  | relatorio => exact le_refl _
  | relatorioArquivadas => exact le_refl _

theorem Sistema.createdIds_ge (ops : List Op) (s : Sistema) :
    ∀ i ∈ s.createdIds ops, s.idCounter ≤ i := by
  induction ops generalizing s with
  | nil => intro i hi; cases hi
  | cons op ops ih =>
    intro i hi
    have hmono := s.step_counter_mono op
    cases op with
    | criar titulo descricao prio orig now =>
      simp only [Sistema.createdIds] at hi
      cases hc : criar_tarefa titulo descricao prio orig s.idCounter now with
      | none =>
        rw [hc] at hi
        exact le_trans hmono (ih (s.step (.criar titulo descricao prio orig now)) i hi)
      | some t =>
        rw [hc] at hi
        rcases List.mem_cons.mp hi with rfl | hi
        · exact le_refl _
        · exact le_trans hmono
            (ih (s.step (.criar titulo descricao prio orig now)) i hi)
    | verificarUrgencia =>
      simp only [Sistema.createdIds] at hi
      exact le_trans hmono (ih _ i hi)
    | atualizarPrioridade tid nova =>
      simp only [Sistema.createdIds] at hi
      exact le_trans hmono (ih _ i hi)
    | concluir tid now =>
      simp only [Sistema.createdIds] at hi
      exact le_trans hmono (ih _ i hi)
    | arquivar now =>
      simp only [Sistema.createdIds] at hi
      exact le_trans hmono (ih _ i hi)
    | excluir tid =>
      simp only [Sistema.createdIds] at hi
      exact le_trans hmono (ih _ i hi)
    | relatorio =>
      simp only [Sistema.createdIds] at hi
      exact le_trans hmono (ih _ i hi)
    | relatorioArquivadas =>
      simp only [Sistema.createdIds] at hi
      exact le_trans hmono (ih _ i hi)

theorem Sistema.createdIds_sorted (ops : List Op) (s : Sistema) :
    (s.createdIds ops).Pairwise (· < ·) := by
  induction ops generalizing s with
  | nil => exact List.Pairwise.nil
  | cons op ops ih =>
    cases op with
    | criar titulo descricao prio orig now =>
      simp only [Sistema.createdIds]
      cases hc : criar_tarefa titulo descricao prio orig s.idCounter now with
      | none => exact ih _
      | some t =>
        refine List.Pairwise.cons ?_ (ih _)
        intro i hi
        have := Sistema.createdIds_ge ops
          (s.step (.criar titulo descricao prio orig now)) i hi
        have hcount : (s.step (.criar titulo descricao prio orig now)).idCounter
            = s.idCounter + 1 := by
          simp only [Sistema.step, hc]
        omega
    | verificarUrgencia =>
      simp only [Sistema.createdIds]
      exact ih _
    | atualizarPrioridade tid nova =>
      simp only [Sistema.createdIds]
      exact ih _
    | concluir tid now =>
      simp only [Sistema.createdIds]
      exact ih _
    | arquivar now =>
      simp only [Sistema.createdIds]
      exact ih _
    | excluir tid =>
      simp only [Sistema.createdIds]
      exact ih _
    | relatorio =>
      simp only [Sistema.createdIds]
      exact ih _
    | relatorioArquivadas =>
      simp only [Sistema.createdIds]
      exact ih _

/-- C7: in a session starting from loaded collections with pairwise-distinct
ids, the counter is initialized to one more than the largest loaded id, every
loaded id lies below it, after any sequence of menu operations the ids of the
union of the active and archived collections remain pairwise distinct, and
the ids handed to successful creations are strictly increasing in creation
order (hence never reused). -/
theorem ids_unicos_e_crescentes (tasks0 archived0 : List Tarefa)
    (ops : List Op)
    (h0 : ((tasks0 ++ archived0).map Tarefa.id).Nodup) :
    (carregar_dados tasks0 archived0).idCounter =
      maxId (tasks0 ++ archived0) + 1 ∧
    (∀ t ∈ tasks0 ++ archived0,
      t.id < (carregar_dados tasks0 archived0).idCounter) ∧
    ((((carregar_dados tasks0 archived0).run ops).tasks ++
      ((carregar_dados tasks0 archived0).run ops).archived).map
        Tarefa.id).Nodup ∧
    ((carregar_dados tasks0 archived0).createdIds ops).Pairwise (· < ·) := by
  have hbom := carregar_dados_bom tasks0 archived0 h0
  refine ⟨rfl, hbom.2, ?_, ?_⟩
  · exact (Sistema.run_bom ops _ hbom).1
  · exact Sistema.createdIds_sorted ops _

/-- Witness for C7: an empty load followed by two creations, an urgency pick,
a completion and an archival sweep keeps ids distinct and increasing. -/
theorem ids_unicos_e_crescentes_witness :
    ((carregar_dados [] []).createdIds
      [Op.criar "A" "" "Alta" "Telefone" 0,
       Op.criar "B" "" "Baixa" "Telefone" 1,
       Op.verificarUrgencia, Op.concluir 1 2,
       Op.arquivar 1209600]).Pairwise (· < ·) :=
  (ids_unicos_e_crescentes [] []
    [Op.criar "A" "" "Alta" "Telefone" 0,
     Op.criar "B" "" "Baixa" "Telefone" 1,
     Op.verificarUrgencia, Op.concluir 1 2,
     Op.arquivar 1209600] (by decide)).2.2.2

end ListaTarefas
